import Mathlib

/-!
Verification of the Scholar Mail Digest pipeline (storage, scoring, report
selection, parsing and the fetch command) against its natural-language
specification.  The Python sources are shallowly embedded: dataframes become
lists of records, files become explicit store states, machine floats used as
Unix timestamps become integers, and every external collaborator (mail API,
language model, web fetcher) becomes a function parameter.
-/

namespace ScholarDigest

/-! ## String helpers

Python's str.lower is modelled by mapping Char.toLower over the characters;
the two agree on ASCII text, which is all the titles and keywords considered
here use. -/

def pyLower (s : String) : String :=
  String.mk (s.data.map Char.toLower)

/-- UTF-8 encoding of a single character (code point to 1–4 bytes), as
Python's str.encode produces it. -/
def utf8EncodeChar (c : Char) : List Nat :=
  let n := c.toNat
  if n < 128 then [n]
  else if n < 2048 then [192 + n / 64, 128 + n % 64]
  else if n < 65536 then [224 + n / 4096, 128 + (n / 64) % 64, 128 + n % 64]
  else [240 + n / 262144, 128 + (n / 4096) % 64, 128 + (n / 64) % 64, 128 + n % 64]

/-- UTF-8 encoding of a string as a byte list. -/
def utf8Encode (s : String) : List Nat :=
  (s.data.map utf8EncodeChar).flatten

/-! ## SHA-256 (hashlib.sha256(...).hexdigest())

Executable implementation over byte lists; 32-bit words are naturals reduced
mod 2^32 at every arithmetic step. -/

def w32 : Nat := 4294967296

def rotr32 (n x : Nat) : Nat :=
  ((x >>> n) ||| (x <<< (32 - n))) % w32

def sSig0 (x : Nat) : Nat := (rotr32 7 x) ^^^ (rotr32 18 x) ^^^ (x >>> 3)
def sSig1 (x : Nat) : Nat := (rotr32 17 x) ^^^ (rotr32 19 x) ^^^ (x >>> 10)
def bSig0 (x : Nat) : Nat := (rotr32 2 x) ^^^ (rotr32 13 x) ^^^ (rotr32 22 x)
def bSig1 (x : Nat) : Nat := (rotr32 6 x) ^^^ (rotr32 11 x) ^^^ (rotr32 25 x)

def sha256K : List Nat :=
  [1116352408, 1899447441, 3049323471, 3921009573, 961987163,
   1508970993, 2453635748, 2870763221, 3624381080, 310598401,
   607225278, 1426881987, 1925078388, 2162078206, 2614888103,
   3248222580, 3835390401, 4022224774, 264347078, 604807628,
   770255983, 1249150122, 1555081692, 1996064986, 2554220882,
   2821834349, 2952996808, 3210313671, 3336571891, 3584528711,
   113926993, 338241895, 666307205, 773529912, 1294757372,
   1396182291, 1695183700, 1986661051, 2177026350, 2456956037,
   2730485921, 2820302411, 3259730800, 3345764771, 3516065817,
   3600352804, 4094571909, 275423344, 430227734, 506948616,
   659060556, 883997877, 958139571, 1322822218, 1537002063,
   1747873779, 1955562222, 2024104815, 2227730452, 2361852424,
   2428436474, 2756734187, 3204031479, 3329325298]

def sha256H0 : List Nat :=
  [1779033703, 3144134277, 1013904242, 2773480762,
   1359893119, 2600822924, 528734635, 1541459225]

/-- Big-endian byte decomposition of a natural, fixed width. -/
def toBytesBE (len n : Nat) : List Nat :=
  ((List.range len).reverse).map (fun i => (n >>> (8 * i)) % 256)

/-- SHA-256 padding: one 0x80 byte, zeros, then the 64-bit big-endian bit
length, to a multiple of 64 bytes. -/
def sha256Pad (msg : List Nat) : List Nat :=
  let L := msg.length
  let padLen := (119 - L % 64) % 64
  msg ++ [128] ++ List.replicate padLen 0 ++ toBytesBE 8 (8 * L)

/-- Group bytes into 32-bit big-endian words. -/
def bytesToWords : List Nat → List Nat
  | b0 :: b1 :: b2 :: b3 :: rest =>
      (((b0 * 256 + b1) * 256 + b2) * 256 + b3) :: bytesToWords rest
  | _ => []

/-- One step of the message-schedule extension; the accumulator holds the
schedule so far, newest word first. -/
def schedStep (acc : List Nat) : List Nat :=
  ((sSig1 (acc.getD 1 0) + acc.getD 6 0 + sSig0 (acc.getD 14 0) + acc.getD 15 0) % w32) :: acc

/-- Extend 16 words to the 64-word schedule. -/
def schedule (w16 : List Nat) : List Nat :=
  ((List.range 48).foldl (fun acc _ => schedStep acc) w16.reverse).reverse

/-- One compression round on state [a,b,c,d,e,f,g,h]. -/
def compressStep (st : List Nat) (kw : Nat × Nat) : List Nat :=
  match st with
  | [a, b, c, d, e, f, g, h] =>
      let ch := (e &&& f) ^^^ ((4294967295 ^^^ e) &&& g)
      let t1 := (h + bSig1 e + ch + kw.1 + kw.2) % w32
      let maj := (a &&& b) ^^^ (a &&& c) ^^^ (b &&& c)
      let t2 := (bSig0 a + maj) % w32
      [(t1 + t2) % w32, a, b, c, (d + t1) % w32, e, f, g]
  | other => other

/-- Compress one 16-word block into the running hash state. -/
def sha256Compress (h w16 : List Nat) : List Nat :=
  let st := (sha256K.zip (schedule w16)).foldl compressStep h
  (h.zip st).map (fun p => (p.1 + p.2) % w32)

/-- Fold the 512-bit blocks of the padded message into the hash state. -/
def sha256Blocks (h : List Nat) : List Nat → List Nat
  | w0 :: w1 :: w2 :: w3 :: w4 :: w5 :: w6 :: w7 ::
    w8 :: w9 :: w10 :: w11 :: w12 :: w13 :: w14 :: w15 :: rest =>
      sha256Blocks (sha256Compress h [w0, w1, w2, w3, w4, w5, w6, w7,
                                      w8, w9, w10, w11, w12, w13, w14, w15]) rest
  | _ => h

def hexDigit (n : Nat) : Char :=
  if n < 10 then Char.ofNat (48 + n) else Char.ofNat (87 + n)

def wordToHex (x : Nat) : List Char :=
  ((List.range 8).reverse).map (fun i => hexDigit ((x >>> (4 * i)) % 16))

/-- Lowercase hex digest of a byte list, as hexdigest() renders it. -/
def sha256Hex (msg : List Nat) : String :=
  String.mk ((sha256Blocks sha256H0 (bytesToWords (sha256Pad msg))).map wordToHex).flatten

/-- storage.get_title_hash: sha256 of the lower-cased, UTF-8 encoded title. -/
def get_title_hash (title : String) : String :=
  sha256Hex (utf8Encode (pyLower title))

/-! ## Data model

One CSV/SQLite row.  save_articles materialises the column set
[hash, title, link, summary, email_id, email_date, score, reason,
full_text_summary, added_at], filling absent optional columns with None;
float Unix timestamps are modelled as integers.  A CSV written by this
program always carries all columns, so a row is a full record with
nullable optional fields (the spec's null, pandas' NaN, is Option.none). -/

structure Article where
  hash : String
  title : String
  link : String
  summary : String
  email_id : Option String
  email_date : Option Int
  score : Option String
  reason : Option String
  full_text_summary : Option String
  added_at : String
  deriving DecidableEq, Repr

/-- A parsed article dict as save_articles receives it from the fetch
pipeline: title/link/summary from the parser plus the provenance fields the
cli attaches.  The title key is always present, so the early
missing-title-column return in save_articles is unreachable for these
inputs. -/
structure RawArticle where
  title : String
  link : String
  summary : String
  email_id : String
  email_date : Int
  deriving DecidableEq, Repr

/-- State of the CSV file as pd.read_csv observes it: missing, readable with
the given rows, present but empty (EmptyDataError), or present with the given
rows yet failing to read or process (the generic except branch).  The err
constructor keeps the on-disk rows so that what an overwrite destroys can be
stated. -/
inductive CsvFile where
  | absent : CsvFile
  | ok : List Article → CsvFile
  | emptyData : CsvFile
  | err : List Article → CsvFile
  deriving DecidableEq, Repr

/-- The row a batch entry becomes: hash from the title, added_at from the
wall clock (a parameter here), score/reason/full_text_summary absent. -/
def mkArticle (now : String) (r : RawArticle) : Article :=
  { hash := get_title_hash r.title
    title := r.title
    link := r.link
    summary := r.summary
    email_id := some r.email_id
    email_date := some r.email_date
    score := none
    reason := none
    full_text_summary := none
    added_at := now }

/-- drop_duplicates(subset="hash", keep="first"): keep the first row of each
hash, preserving order; seen accumulates the hashes already kept. -/
def dedupByHashAux (seen : List String) : List Article → List Article
  | [] => []
  | a :: rest =>
      if a.hash ∈ seen then dedupByHashAux seen rest
      else a :: dedupByHashAux (a.hash :: seen) rest

def dedupByHash (l : List Article) : List Article := dedupByHashAux [] l

/-- isin membership test on the hash column. -/
def hasHash (rows : List Article) (h : String) : Bool :=
  rows.any (fun e => e.hash == h)

/-- sqlite_utils insert with pk="hash", ignore=True: insert-if-absent by
primary key. -/
def sqliteInsert (db : List Article) (a : Article) : List Article :=
  if hasHash db a.hash then db else db ++ [a]

/-- insert_all with pk="hash", ignore=True over a batch, in order. -/
def sqliteInsertAll (db : List Article) (recs : List Article) : List Article :=
  recs.foldl sqliteInsert db

/-- Outcome of one save_articles call: the CSV file state, the SQLite table
rows, and the Python return value — every return statement in the function is
bare, so the returned value is None on all paths. -/
structure SaveResult where
  csv : CsvFile
  db : List Article
  ret : Option Nat
  deriving DecidableEq, Repr

/-- storage.save_articles.  Branches follow the source: empty batch returns
at once; a readable CSV deduplicates the batch against itself and then
against the stored hashes and appends; a missing, empty or unreadable CSV
leads to the batch (self-deduplicated only) being written on its own — the
unreadable case logs and overwrites, discarding the prior rows.  The SQLite
table receives exactly the rows appended to the CSV, via insert-if-absent.
The branches for a CSV lacking the hash or title column are not modelled:
files written by this program always carry both. -/
def save_articles (csv : CsvFile) (db : List Article)
    (articles_data : List RawArticle) (now : String) : SaveResult :=
  if articles_data.isEmpty then ⟨csv, db, none⟩
  else
    let newArticles := articles_data.map (mkArticle now)
    match csv with
    | CsvFile.ok existing =>
        let d1 := dedupByHash newArticles
        let d2 := if existing.isEmpty then d1
                  else d1.filter (fun a => ! hasHash existing a.hash)
        let combined := existing ++ d2
        let csvOut := if combined.isEmpty then CsvFile.ok existing else CsvFile.ok combined
        ⟨csvOut, sqliteInsertAll db d2, none⟩
    | CsvFile.absent =>
        let d1 := dedupByHash newArticles
        let csvOut := if d1.isEmpty then CsvFile.absent else CsvFile.ok d1
        ⟨csvOut, sqliteInsertAll db d1, none⟩
    | CsvFile.emptyData =>
        let d1 := dedupByHash newArticles
        let csvOut := if d1.isEmpty then CsvFile.emptyData else CsvFile.ok d1
        ⟨csvOut, sqliteInsertAll db d1, none⟩
    | CsvFile.err prior =>
        let d1 := dedupByHash newArticles
        let csvOut := if d1.isEmpty then CsvFile.err prior else CsvFile.ok d1
        ⟨csvOut, sqliteInsertAll db d1, none⟩

/-- storage.load_all_articles_from_csv: a missing, empty or unreadable store
reads as empty (logged); a readable store returns its rows, optional columns
already present in the row type. -/
def load_all_articles_from_csv : CsvFile → List Article
  | CsvFile.ok rows => rows
  | _ => []

/-! ## Deduplication lemmas -/

theorem mem_of_mem_dedupByHashAux {seen : List String} {l : List Article} {a : Article}
    (h : a ∈ dedupByHashAux seen l) : a ∈ l := by
  induction l generalizing seen with
  | nil => simp only [dedupByHashAux] at h; cases h
  | cons b rest ih =>
      by_cases hb : b.hash ∈ seen
      · simp only [dedupByHashAux, if_pos hb] at h
        exact List.mem_cons_of_mem _ (ih h)
      · simp only [dedupByHashAux, if_neg hb, List.mem_cons] at h
        rcases h with h | h
        · exact h ▸ List.mem_cons_self _ _
        · exact List.mem_cons_of_mem _ (ih h)

theorem exists_hash_mem_dedupByHashAux {seen : List String} {l : List Article} {b : Article}
    (hmem : b ∈ l) (hns : b.hash ∉ seen) :
    ∃ a ∈ dedupByHashAux seen l, a.hash = b.hash := by
  induction l generalizing seen with
  | nil => cases hmem
  | cons c rest ih =>
      by_cases hc : c.hash ∈ seen
      · rcases List.mem_cons.mp hmem with rfl | hmem'
        · exact absurd hc hns
        · rcases ih hmem' hns with ⟨a, ha, he⟩
          exact ⟨a, by simp only [dedupByHashAux, if_pos hc]; exact ha, he⟩
      · by_cases hbc : b.hash = c.hash
        · refine ⟨c, ?_, hbc.symm⟩
          simp only [dedupByHashAux, if_neg hc]
          exact List.mem_cons_self _ _
        · rcases List.mem_cons.mp hmem with rfl | hmem'
          · exact absurd rfl hbc
          · have hns' : b.hash ∉ c.hash :: seen := by
              simp only [List.mem_cons]
              exact fun h => h.elim hbc hns
            rcases ih hmem' hns' with ⟨a, ha, he⟩
            refine ⟨a, ?_, he⟩
            simp only [dedupByHashAux, if_neg hc]
            exact List.mem_cons_of_mem _ ha

theorem hasHash_iff {rows : List Article} {h : String} :
    hasHash rows h = true ↔ ∃ b ∈ rows, b.hash = h := by
  simp [hasHash, List.any_eq_true, beq_iff_eq]

/-- Every batch entry's title hash is present in the CSV store a save leaves
behind, whatever the prior file state was. -/
theorem save_covers (csv : CsvFile) (db : List Article) (L : List RawArticle)
    (n1 : String) (r : RawArticle) (hr : r ∈ L) :
    ∃ b ∈ load_all_articles_from_csv (save_articles csv db L n1).csv,
      b.hash = get_title_hash r.title := by
  obtain ⟨l0, Ls, rfl⟩ : ∃ l0 Ls, L = l0 :: Ls := by
    cases L with
    | nil => cases hr
    | cons l0 Ls => exact ⟨l0, Ls, rfl⟩
  have hN : mkArticle n1 r ∈ (l0 :: Ls).map (mkArticle n1) :=
    List.mem_map_of_mem _ hr
  obtain ⟨c, hc, hch⟩ :
      ∃ c ∈ dedupByHash ((l0 :: Ls).map (mkArticle n1)),
        c.hash = get_title_hash r.title := by
    have := @exists_hash_mem_dedupByHashAux [] _ _ hN (by simp)
    simpa [dedupByHash, mkArticle] using this
  simp only [save_articles, List.isEmpty_cons, Bool.false_eq_true, if_false]
  cases csv with
  | ok existing =>
      by_cases he : existing.isEmpty
      · have hmem : c ∈ existing ++ dedupByHash ((l0 :: Ls).map (mkArticle n1)) :=
          List.mem_append_right _ hc
        have hne : ¬(existing ++ dedupByHash ((l0 :: Ls).map (mkArticle n1))).isEmpty := by
          simp only [List.isEmpty_iff]
          exact List.ne_nil_of_mem hmem
        simp only [if_pos he, if_neg hne, load_all_articles_from_csv]
        exact ⟨c, hmem, hch⟩
      · by_cases hH : hasHash existing c.hash
        · obtain ⟨b, hb, hbe⟩ := hasHash_iff.mp hH
          have hmem : b ∈ existing ++
              (dedupByHash ((l0 :: Ls).map (mkArticle n1))).filter
                (fun a => ! hasHash existing a.hash) :=
            List.mem_append_left _ hb
          have hne : ¬(existing ++
              (dedupByHash ((l0 :: Ls).map (mkArticle n1))).filter
                (fun a => ! hasHash existing a.hash)).isEmpty := by
            simp only [List.isEmpty_iff]
            exact List.ne_nil_of_mem hmem
          simp only [if_neg he, if_neg hne, load_all_articles_from_csv]
          exact ⟨b, hmem, hbe.trans hch⟩
        · have hcf : c ∈ (dedupByHash ((l0 :: Ls).map (mkArticle n1))).filter
              (fun a => ! hasHash existing a.hash) :=
            List.mem_filter.mpr ⟨hc, by simp [hH]⟩
          have hmem : c ∈ existing ++
              (dedupByHash ((l0 :: Ls).map (mkArticle n1))).filter
                (fun a => ! hasHash existing a.hash) :=
            List.mem_append_right _ hcf
          have hne : ¬(existing ++
              (dedupByHash ((l0 :: Ls).map (mkArticle n1))).filter
                (fun a => ! hasHash existing a.hash)).isEmpty := by
            simp only [List.isEmpty_iff]
            exact List.ne_nil_of_mem hmem
          simp only [if_neg he, if_neg hne, load_all_articles_from_csv]
          exact ⟨c, hmem, hch⟩
  | absent =>
      have hne : ¬(dedupByHash ((l0 :: Ls).map (mkArticle n1))).isEmpty := by
        simp only [List.isEmpty_iff]
        exact List.ne_nil_of_mem hc
      simp only [if_neg hne, load_all_articles_from_csv]
      exact ⟨c, hc, hch⟩
  | emptyData =>
      have hne : ¬(dedupByHash ((l0 :: Ls).map (mkArticle n1))).isEmpty := by
        simp only [List.isEmpty_iff]
        exact List.ne_nil_of_mem hc
      simp only [if_neg hne, load_all_articles_from_csv]
      exact ⟨c, hc, hch⟩
  | err prior =>
      have hne : ¬(dedupByHash ((l0 :: Ls).map (mkArticle n1))).isEmpty := by
        simp only [List.isEmpty_iff]
        exact List.ne_nil_of_mem hc
      simp only [if_neg hne, load_all_articles_from_csv]
      exact ⟨c, hc, hch⟩

/-- After a save of a nonempty batch the CSV state is a readable, nonempty
row list. -/
theorem save_csv_ok (csv : CsvFile) (db : List Article) (l0 : RawArticle)
    (Ls : List RawArticle) (n1 : String) :
    ∃ rows1, (save_articles csv db (l0 :: Ls) n1).csv = CsvFile.ok rows1 ∧ rows1 ≠ [] := by
  obtain ⟨b, hb, -⟩ :=
    save_covers csv db (l0 :: Ls) n1 l0 (List.mem_cons_self _ _)
  cases hcsv : (save_articles csv db (l0 :: Ls) n1).csv with
  | ok rows1 =>
      rw [hcsv] at hb
      exact ⟨rows1, rfl, List.ne_nil_of_mem hb⟩
  | absent => rw [hcsv] at hb; cases hb
  | emptyData => rw [hcsv] at hb; cases hb
  | err prior => rw [hcsv] at hb; cases hb

/-- C1.  Ingestion is idempotent: saving the same batch a second time
changes neither the CSV store nor the SQLite store — the second run's
batch is entirely filtered out against the hashes the first run stored,
and the SQLite insert-if-absent receives nothing. -/
theorem save_articles_idempotent (csv : CsvFile) (db : List Article)
    (L : List RawArticle) (n1 n2 : String) :
    save_articles (save_articles csv db L n1).csv (save_articles csv db L n1).db L n2
      = ⟨(save_articles csv db L n1).csv, (save_articles csv db L n1).db, none⟩ := by
  cases L with
  | nil => simp [save_articles]
  | cons l0 Ls =>
      obtain ⟨rows1, hcsv, hne⟩ := save_csv_ok csv db l0 Ls n1
      have hcover : ∀ a ∈ dedupByHash ((l0 :: Ls).map (mkArticle n2)),
          hasHash rows1 a.hash = true := by
        intro a ha
        have haN : a ∈ (l0 :: Ls).map (mkArticle n2) :=
          mem_of_mem_dedupByHashAux ha
        obtain ⟨r, hrL, rfl⟩ := List.mem_map.mp haN
        obtain ⟨b, hb, hbe⟩ := save_covers csv db (l0 :: Ls) n1 r hrL
        rw [hcsv] at hb
        exact hasHash_iff.mpr ⟨b, hb, hbe⟩
      have hfilter : (dedupByHash ((l0 :: Ls).map (mkArticle n2))).filter
          (fun a => ! hasHash rows1 a.hash) = [] := by
        rw [List.filter_eq_nil_iff]
        intro a ha
        simp [hcover a ha]
      have hrows1 : rows1.isEmpty = false := by
        cases rows1 with
        | nil => exact absurd rfl hne
        | cons x xs => rfl
      rw [hcsv]
      simp only [save_articles, List.isEmpty_cons, Bool.false_eq_true, if_false,
        hrows1, hfilter, List.append_nil, sqliteInsertAll, List.foldl_nil]

/-- A nonempty batch deduplicates to a nonempty list. -/
theorem dedup_map_ne_nil (l0 : RawArticle) (Ls : List RawArticle) (now : String) :
    (dedupByHash ((l0 :: Ls).map (mkArticle now))).isEmpty = false := by
  have hN : mkArticle now l0 ∈ (l0 :: Ls).map (mkArticle now) :=
    List.mem_map_of_mem _ (List.mem_cons_self _ _)
  obtain ⟨a, ha, -⟩ := @exists_hash_mem_dedupByHashAux [] _ _ hN (by simp)
  have : dedupByHash ((l0 :: Ls).map (mkArticle now)) ≠ [] :=
    List.ne_nil_of_mem ha
  cases hdd : dedupByHash ((l0 :: Ls).map (mkArticle now)) with
  | nil => exact absurd hdd this
  | cons x xs => rfl

/-- C3 (counterexample).  A stored row lost to an unreadable-CSV save: with
one row on disk that fails to read, saving a one-element batch rewrites the
file to hold only the new row — the prior row is no longer in the store —
and the call returns None instead of raising.  This contradicts the claim
that previously persisted records survive a failed load and that the I/O
error reaches the caller. -/
theorem save_err_drops_prior_row_cex :
    (save_articles
        (CsvFile.err [{ hash := "h-old", title := "Old Stored Article",
                        link := "http://old", summary := "sum",
                        email_id := none, email_date := none, score := none,
                        reason := none, full_text_summary := none,
                        added_at := "2024" }])
        [] [{ title := "t", link := "http://new", summary := "",
              email_id := "e9", email_date := 5 }] "2025").csv
      = CsvFile.ok [mkArticle "2025"
          { title := "t", link := "http://new", summary := "",
            email_id := "e9", email_date := 5 }]
    ∧ ({ hash := "h-old", title := "Old Stored Article",
         link := "http://old", summary := "sum",
         email_id := none, email_date := none, score := none,
         reason := none, full_text_summary := none,
         added_at := "2024" } : Article)
        ∉ load_all_articles_from_csv
            (save_articles
              (CsvFile.err [{ hash := "h-old", title := "Old Stored Article",
                              link := "http://old", summary := "sum",
                              email_id := none, email_date := none, score := none,
                              reason := none, full_text_summary := none,
                              added_at := "2024" }])
              [] [{ title := "t", link := "http://new", summary := "",
                    email_id := "e9", email_date := 5 }] "2025").csv
    ∧ (save_articles
        (CsvFile.err [{ hash := "h-old", title := "Old Stored Article",
                        link := "http://old", summary := "sum",
                        email_id := none, email_date := none, score := none,
                        reason := none, full_text_summary := none,
                        added_at := "2024" }])
        [] [{ title := "t", link := "http://new", summary := "",
              email_id := "e9", email_date := 5 }] "2025").ret = none := by
  refine ⟨by decide, by decide, by decide⟩

/-- C3 (amended).  When reading the existing CSV raises a generic error,
save_articles logs the error and overwrites the file with the
self-deduplicated new batch alone: every previously persisted row is dropped
from the CSV, and nothing propagates to the caller — the call still returns
None. -/
theorem save_err_overwrites (S db : List Article) (L : List RawArticle)
    (now : String) (hL : L ≠ []) :
    (save_articles (CsvFile.err S) db L now).csv
        = CsvFile.ok (dedupByHash (L.map (mkArticle now)))
      ∧ (save_articles (CsvFile.err S) db L now).ret = none := by
  obtain ⟨l0, Ls, rfl⟩ := List.exists_cons_of_ne_nil hL
  refine ⟨?_, rfl⟩
  simp only [save_articles, List.isEmpty_cons, Bool.false_eq_true, if_false,
    dedup_map_ne_nil]

/-- Witness for the amended C3 statement at a concrete store and batch. -/
theorem save_err_overwrites_witness :
    ([({ title := "t", link := "l", summary := "", email_id := "e",
         email_date := 1 } : RawArticle)] ≠ [])
    ∧ ((save_articles (CsvFile.err []) []
          [{ title := "t", link := "l", summary := "", email_id := "e",
             email_date := 1 }] "now").csv
        = CsvFile.ok (dedupByHash
            ([({ title := "t", link := "l", summary := "", email_id := "e",
                 email_date := 1 } : RawArticle)].map (mkArticle "now")))
      ∧ (save_articles (CsvFile.err []) []
          [{ title := "t", link := "l", summary := "", email_id := "e",
             email_date := 1 }] "now").ret = none) :=
  ⟨by decide, save_err_overwrites [] []
      [{ title := "t", link := "l", summary := "", email_id := "e",
         email_date := 1 }] "now" (by decide)⟩

/-- C9 (counterexample).  Called with an empty batch, save_articles returns
None, not the claimed inserted count 0 — the function has no non-bare return
statement on any path. -/
theorem save_empty_ret_cex :
    (save_articles CsvFile.absent [] [] "t").ret ≠ some 0 := by decide

/-- C9 (amended).  save_articles never returns a count — its Python return
value is None on every path (the counts it reports are only printed); an
empty batch is a full no-op leaving both stores untouched; a missing backing
store is treated as empty and created on first write, the file then holding
exactly the self-deduplicated batch; and against a readable store the
persisted remainder is the batch minus intra-batch hash duplicates (first
occurrence kept) minus rows whose hash is already stored. -/
theorem save_articles_ret_and_degenerate :
    (∀ csv db now, save_articles csv db [] now = ⟨csv, db, none⟩)
    ∧ (∀ csv db L now, (save_articles csv db L now).ret = none)
    ∧ (∀ db L now, L ≠ [] →
        (save_articles CsvFile.absent db L now).csv
          = CsvFile.ok (dedupByHash (L.map (mkArticle now))))
    ∧ (∀ existing db L now, existing ≠ [] →
        (save_articles (CsvFile.ok existing) db L now).csv
          = CsvFile.ok (existing ++ (dedupByHash (L.map (mkArticle now))).filter
              (fun a => ! hasHash existing a.hash))) := by
  refine ⟨fun csv db now => by simp [save_articles], ?_, ?_, ?_⟩
  · intro csv db L now
    cases L with
    | nil => rfl
    | cons l0 Ls => cases csv <;> rfl
  · intro db L now hL
    obtain ⟨l0, Ls, rfl⟩ := List.exists_cons_of_ne_nil hL
    simp only [save_articles, List.isEmpty_cons, Bool.false_eq_true, if_false,
      dedup_map_ne_nil]
  · intro existing db L now hex
    cases L with
    | nil =>
        simp only [save_articles, List.isEmpty_nil, if_true, List.map_nil]
        simp [dedupByHash, dedupByHashAux]
    | cons l0 Ls =>
        have hne : (existing ++ (dedupByHash ((l0 :: Ls).map (mkArticle now))).filter
            (fun a => ! hasHash existing a.hash)).isEmpty = false := by
          cases hx : existing with
          | nil => exact absurd hx hex
          | cons y ys => rfl
        have hexB : existing.isEmpty = false := by
          cases hx : existing with
          | nil => exact absurd hx hex
          | cons y ys => rfl
        simp only [save_articles, List.isEmpty_cons, Bool.false_eq_true, if_false,
          hexB, hne]

/-- Witness instantiating the amended C9 statement: the empty-batch no-op at
a concrete state, and the missing-store first write at a one-element batch. -/
theorem save_articles_ret_and_degenerate_witness :
    save_articles (CsvFile.ok []) [] [] "t" = ⟨CsvFile.ok [], [], none⟩
    ∧ (([({ title := "t", link := "l", summary := "", email_id := "e",
            email_date := 1 } : RawArticle)] ≠ [])
      ∧ (save_articles CsvFile.absent []
            [{ title := "t", link := "l", summary := "", email_id := "e",
               email_date := 1 }] "n").csv
          = CsvFile.ok (dedupByHash
              ([({ title := "t", link := "l", summary := "", email_id := "e",
                   email_date := 1 } : RawArticle)].map (mkArticle "n")))) :=
  ⟨save_articles_ret_and_degenerate.1 (CsvFile.ok []) [] "t",
   by decide,
   save_articles_ret_and_degenerate.2.2.1 []
      [{ title := "t", link := "l", summary := "", email_id := "e",
         email_date := 1 }] "n" (by decide)⟩

/-- C7 (counterexample).  The content hash is not whitespace-normalized:
two titles equal up to whitespace hash to different keys, because the code
only lower-cases before digesting. -/
theorem get_title_hash_whitespace_cex :
    get_title_hash "a b" ≠ get_title_hash "a  b" := by decide

/-- C7 (amended).  The content hash is a deterministic, side-effect-free
function of the lower-cased title: any two titles equal after lower-casing
(in particular, titles differing only in letter case) hash to the same key;
whitespace is not normalized. -/
theorem get_title_hash_case_insensitive (t1 t2 : String)
    (h : pyLower t1 = pyLower t2) :
    get_title_hash t1 = get_title_hash t2 := by
  unfold get_title_hash
  rw [h]

/-- Witness: the spec's own example pair, Foo Bar versus foo bar. -/
theorem get_title_hash_case_insensitive_witness :
    pyLower "Foo Bar" = pyLower "foo bar"
    ∧ get_title_hash "Foo Bar" = get_title_hash "foo bar" :=
  ⟨by decide, get_title_hash_case_insensitive "Foo Bar" "foo bar" (by decide)⟩

/-! ## Partial-field updates

update_article_scores_in_csv reads the CSV, indexes both frames by hash and
calls DataFrame.update restricted to the score and reason columns: a cell is
overwritten only where the scoring frame has a non-null value at a matching
hash, everything else keeps its prior value, and scoring rows whose hash
matches no stored row are ignored.  The model resolves a stored row against
the first scoring row of equal hash, which coincides with pandas whenever the
scoring frame's hashes are unique — the only shape this program produces,
since the scorer emits one row per stored record. -/

structure ScoredRow where
  hash : String
  score : Option String
  reason : Option String
  deriving DecidableEq, Repr

def updateOne (scored : List ScoredRow) (a : Article) : Article :=
  match scored.find? (fun s => s.hash == a.hash) with
  | none => a
  | some s =>
      { a with
        score := match s.score with | some v => some v | none => a.score
        reason := match s.reason with | some v => some v | none => a.reason }

/-- storage.update_article_scores_in_csv: nothing happens when the file is
missing or the scoring frame is empty; a read failure (empty or unreadable
file) is caught and leaves the file as it was; otherwise every stored row is
merged against the scoring frame and the file rewritten. -/
def update_article_scores_in_csv (csv : CsvFile) (scored : List ScoredRow) : CsvFile :=
  match csv with
  | CsvFile.ok rows =>
      if scored.isEmpty then CsvFile.ok rows
      else CsvFile.ok (rows.map (updateOne scored))
  | other => other

structure EnrichRow where
  hash : String
  full_text_summary : Option String
  deriving DecidableEq, Repr

def updateOneEnrich (enr : List EnrichRow) (a : Article) : Article :=
  match enr.find? (fun s => s.hash == a.hash) with
  | none => a
  | some s =>
      { a with
        full_text_summary :=
          match s.full_text_summary with | some v => some v | none => a.full_text_summary }

/-- storage.update_article_enrichment_in_csv, same merge shape restricted to
the full_text_summary column. -/
def update_article_enrichment_in_csv (csv : CsvFile) (enr : List EnrichRow) : CsvFile :=
  match csv with
  | CsvFile.ok rows =>
      if enr.isEmpty then CsvFile.ok rows
      else CsvFile.ok (rows.map (updateOneEnrich enr))
  | other => other

/-- The fields a score update can never touch. -/
def frameFields (a : Article) :
    String × String × String × String × Option String × Option String × Option Int × String :=
  (a.hash, a.title, a.link, a.summary, a.full_text_summary, a.email_id, a.email_date, a.added_at)

theorem updateOne_frame (scored : List ScoredRow) (a : Article) :
    frameFields (updateOne scored a) = frameFields a := by
  unfold updateOne
  cases scored.find? (fun s => s.hash == a.hash) with
  | none => rfl
  | some s => rfl

theorem updateOne_not_addressed (scored : List ScoredRow) (a : Article)
    (h : ∀ s ∈ scored, s.hash ≠ a.hash) : updateOne scored a = a := by
  unfold updateOne
  have : scored.find? (fun s => s.hash == a.hash) = none := by
    rw [List.find?_eq_none]
    intro s hs
    simp [h s hs]
  rw [this]

/-- C4.  Field-merge isolation of the score update: (i) for every stored
row the hash, title, link, summary, full_text_summary and provenance fields
come out unchanged, row for row; (ii) a row none of whose hashes are
addressed by the scoring frame is entirely unchanged, score and reason
included; (iii) a scoring row addressing a hash absent from the store is a
no-op, not an error: dropping it from the batch gives the same file. -/
theorem update_scores_isolation :
    (∀ rows scored,
      (load_all_articles_from_csv
          (update_article_scores_in_csv (CsvFile.ok rows) scored)).map frameFields
        = rows.map frameFields)
    ∧ (∀ (rows : List Article) (scored : List ScoredRow) (a : Article),
        a ∈ rows → (∀ s ∈ scored, s.hash ≠ a.hash) →
        updateOne scored a = a)
    ∧ (∀ rows (s : ScoredRow) scored, (∀ a ∈ rows, a.hash ≠ s.hash) →
        update_article_scores_in_csv (CsvFile.ok rows) (s :: scored)
          = update_article_scores_in_csv (CsvFile.ok rows) scored) := by
  refine ⟨?_, fun rows scored a _ h => updateOne_not_addressed scored a h, ?_⟩
  · intro rows scored
    unfold update_article_scores_in_csv
    by_cases hs : scored.isEmpty
    · simp [hs, load_all_articles_from_csv]
    · simp only [hs, Bool.false_eq_true, if_false, load_all_articles_from_csv,
        List.map_map]
      exact List.map_congr_left (fun a _ => updateOne_frame scored a)
  · intro rows s scored habs
    unfold update_article_scores_in_csv
    have hfind : ∀ a ∈ rows,
        (s :: scored).find? (fun x => x.hash == a.hash)
          = scored.find? (fun x => x.hash == a.hash) := by
      intro a ha
      have hb : (s.hash == a.hash) = false :=
        beq_eq_false_iff_ne.mpr (fun h => habs a ha h.symm)
      simp [List.find?, hb]
    have hmap : rows.map (updateOne (s :: scored)) = rows.map (updateOne scored) := by
      refine List.map_congr_left (fun a ha => ?_)
      unfold updateOne
      rw [hfind a ha]
    by_cases hsc : scored.isEmpty
    · have hnil : scored = [] := List.isEmpty_iff.mp hsc
      subst hnil
      have hid : rows.map (updateOne ([] : List ScoredRow)) = rows := by
        have h1 : rows.map (updateOne ([] : List ScoredRow)) = rows.map id :=
          List.map_congr_left (fun a _ => rfl)
        rw [h1, List.map_id]
      simp [hmap, hid]
    · simp [hsc, hmap]

/-- Witness for C4 at a two-row store: one row is rescored, its frame fields
survive, the unaddressed row is untouched, and a ghost hash in the scoring
frame changes nothing. -/
theorem update_scores_isolation_witness :
    ((load_all_articles_from_csv
        (update_article_scores_in_csv
          (CsvFile.ok [{ hash := "h1", title := "T1", link := "L1", summary := "S1",
                         email_id := some "e1", email_date := some 3, score := none,
                         reason := none, full_text_summary := some "F1",
                         added_at := "a1" },
                       { hash := "h2", title := "T2", link := "L2", summary := "S2",
                         email_id := some "e2", email_date := some 4, score := some "Low",
                         reason := some "r2", full_text_summary := none,
                         added_at := "a2" }])
          [{ hash := "h1", score := some "High", reason := some "good" }])).map frameFields
      = [{ hash := "h1", title := "T1", link := "L1", summary := "S1",
           email_id := some "e1", email_date := some 3, score := none,
           reason := none, full_text_summary := some "F1",
           added_at := "a1" },
         { hash := "h2", title := "T2", link := "L2", summary := "S2",
           email_id := some "e2", email_date := some 4, score := some "Low",
           reason := some "r2", full_text_summary := none,
           added_at := "a2" }].map frameFields)
    ∧ updateOne [{ hash := "h1", score := some "High", reason := some "good" }]
        { hash := "h2", title := "T2", link := "L2", summary := "S2",
          email_id := some "e2", email_date := some 4, score := some "Low",
          reason := some "r2", full_text_summary := none, added_at := "a2" }
      = { hash := "h2", title := "T2", link := "L2", summary := "S2",
          email_id := some "e2", email_date := some 4, score := some "Low",
          reason := some "r2", full_text_summary := none, added_at := "a2" }
    ∧ update_article_scores_in_csv
        (CsvFile.ok [{ hash := "h1", title := "T1", link := "L1", summary := "S1",
                       email_id := some "e1", email_date := some 3, score := none,
                       reason := none, full_text_summary := some "F1",
                       added_at := "a1" }])
        [{ hash := "ghost", score := some "High", reason := some "x" }]
      = update_article_scores_in_csv
        (CsvFile.ok [{ hash := "h1", title := "T1", link := "L1", summary := "S1",
                       email_id := some "e1", email_date := some 3, score := none,
                       reason := none, full_text_summary := some "F1",
                       added_at := "a1" }]) [] :=
  ⟨update_scores_isolation.1 _ _,
   update_scores_isolation.2.1
     [{ hash := "h2", title := "T2", link := "L2", summary := "S2",
        email_id := some "e2", email_date := some 4, score := some "Low",
        reason := some "r2", full_text_summary := none, added_at := "a2" }]
     [{ hash := "h1", score := some "High", reason := some "good" }]
     _ (List.mem_cons_self _ _) (by decide),
   update_scores_isolation.2.2 _
     { hash := "ghost", score := some "High", reason := some "x" } []
     (by decide)⟩

/-! ## Scoring

scorer.score_one checks the configured exclusion keywords against the
lower-cased title-plus-summary text before anything else; only when none
matches does it call the LLM chain, whose outcome (a parsed score/reason or
an exception) is the invoke parameter here.  The sequential path of
score_articles is modelled; the parallel path merges the same per-record
results back by hash and the claims below concern only which records are
scored and with what. -/

/-- Does the needle occur at the start of the haystack? -/
def strStartsWith : List Char → List Char → Bool
  | [], _ => true
  | _ :: _, [] => false
  | n :: ns, h :: hs => n == h && strStartsWith ns hs

def containsSub (needle : List Char) : List Char → Bool
  | [] => needle.isEmpty
  | c :: rest => strStartsWith needle (c :: rest) || containsSub needle rest

/-- Python's substring test, needle in hay. -/
def pyContains (hay needle : String) : Bool :=
  containsSub needle.data hay.data

/-- A parsed LLM response. -/
structure ScoreResp where
  score : String
  reason : String
  deriving DecidableEq, Repr

/-- scorer.score_one on one row dict: exclusion keywords first (first match
wins, Low with a reason citing the keyword); otherwise the chain is invoked
and a raised exception degrades to an Error verdict carrying the message. -/
def score_one (exclude_keywords : List String)
    (invoke : String → String → Except String ScoreResp) (a : Article) : ScoredRow :=
  let text := pyLower (a.title ++ " " ++ a.summary)
  match exclude_keywords.find? (fun kw => pyContains text (pyLower kw)) with
  | some kw => ⟨a.hash, some "Low", some ("Auto-excluded by keyword: " ++ kw)⟩
  | none =>
      match invoke a.title a.summary with
      | Except.ok r => ⟨a.hash, some r.score, some r.reason⟩
      | Except.error e => ⟨a.hash, some "Error", some e⟩

/-- scorer.score_articles, sequential path: each row is scored and the
score/reason columns merged back by hash; with hash-unique input (the only
shape the pipeline passes) the merge resolves each row to its own result. -/
def score_articles (exclude_keywords : List String)
    (invoke : String → String → Except String ScoreResp)
    (articles : List Article) : List Article :=
  articles.map (fun a =>
    let s := score_one exclude_keywords invoke a
    { a with
      score := match s.score with | some v => some v | none => a.score
      reason := match s.reason with | some v => some v | none => a.reason })

/-- cli.fetch, scoring-eligibility filter: rows whose score column is null. -/
def selectUnscored (rows : List Article) : List Article :=
  rows.filter (fun a => a.score.isNone)

/-- scored_articles_df[scored_articles_df.score.notna()] restricted to the
columns the score update consumes. -/
def toScoredRows (scored : List Article) : List ScoredRow :=
  (scored.filter (fun a => a.score.isSome)).map (fun a => ⟨a.hash, a.score, a.reason⟩)

/-- cli.fetch steps 3b–4: load the store, keep the unscored rows, skip
scoring entirely when there are none, otherwise score them and merge the
non-null verdicts back into the CSV. -/
def scoringStage (exclude_keywords : List String)
    (invoke : String → String → Except String ScoreResp) (csv : CsvFile) : CsvFile :=
  let rows := load_all_articles_from_csv csv
  let unscored := selectUnscored rows
  if unscored.isEmpty then csv
  else update_article_scores_in_csv csv
    (toScoredRows (score_articles exclude_keywords invoke unscored))

/-- C8.  Exclusion-keyword precedence: when the lower-cased title+summary
text of a record contains some configured exclusion keyword as a substring,
score_one returns Low with a reason citing the (first matching) keyword, and
the result is the same for every scoring collaborator — the external call is
never consulted for that record, so the keyword check precedes and overrides
any model output. -/
theorem exclusion_keyword_precedence (excl : List String)
    (invoke : String → String → Except String ScoreResp) (a : Article)
    (hex : ∃ kw ∈ excl,
      pyContains (pyLower (a.title ++ " " ++ a.summary)) (pyLower kw) = true) :
    ∃ kw0 ∈ excl,
      pyContains (pyLower (a.title ++ " " ++ a.summary)) (pyLower kw0) = true
      ∧ score_one excl invoke a
          = ⟨a.hash, some "Low", some ("Auto-excluded by keyword: " ++ kw0)⟩
      ∧ ∀ invoke2, score_one excl invoke2 a
          = ⟨a.hash, some "Low", some ("Auto-excluded by keyword: " ++ kw0)⟩ := by
  have hsome : (excl.find? (fun kw =>
      pyContains (pyLower (a.title ++ " " ++ a.summary)) (pyLower kw))).isSome := by
    rw [List.find?_isSome]
    obtain ⟨kw, hkw, hc⟩ := hex
    exact ⟨kw, hkw, hc⟩
  obtain ⟨kw0, hfind⟩ := Option.isSome_iff_exists.mp hsome
  have hp := List.find?_some hfind
  refine ⟨kw0, List.mem_of_find?_eq_some hfind, hp, ?_, ?_⟩
  · simp only [score_one]
    rw [hfind]
  · intro invoke2
    simp only [score_one]
    rw [hfind]

/-- Witness for C8: a record whose title contains the configured keyword
battery is short-circuited to Low citing it, even under a collaborator that
would answer High. -/
theorem exclusion_keyword_precedence_witness :
    (∃ kw ∈ ["battery"],
      pyContains (pyLower ("A Battery Study" ++ " " ++ "cells")) (pyLower kw) = true)
    ∧ ∃ kw0 ∈ ["battery"],
      pyContains (pyLower ("A Battery Study" ++ " " ++ "cells")) (pyLower kw0) = true
      ∧ score_one ["battery"] (fun _ _ => Except.ok ⟨"High", "model says high"⟩)
          { hash := "h1", title := "A Battery Study", link := "L", summary := "cells",
            email_id := none, email_date := none, score := none, reason := none,
            full_text_summary := none, added_at := "a" }
          = ⟨"h1", some "Low", some ("Auto-excluded by keyword: " ++ kw0)⟩
      ∧ ∀ invoke2, score_one ["battery"] invoke2
          { hash := "h1", title := "A Battery Study", link := "L", summary := "cells",
            email_id := none, email_date := none, score := none, reason := none,
            full_text_summary := none, added_at := "a" }
          = ⟨"h1", some "Low", some ("Auto-excluded by keyword: " ++ kw0)⟩ :=
  ⟨by decide,
   exclusion_keyword_precedence ["battery"]
     (fun _ _ => Except.ok ⟨"High", "model says high"⟩)
     { hash := "h1", title := "A Battery Study", link := "L", summary := "cells",
       email_id := none, email_date := none, score := none, reason := none,
       full_text_summary := none, added_at := "a" }
     (by decide)⟩

theorem updateOne_score_some (scored : List ScoredRow) (a : Article)
    (h : a.score.isSome) : (updateOne scored a).score.isSome := by
  unfold updateOne
  cases scored.find? (fun s => s.hash == a.hash) with
  | none => exact h
  | some s =>
      cases hs : s.score with
      | none => simp [hs, h]
      | some v => simp [hs]

theorem zip_map_all {f : Article → Article} {p : Article × Article → Bool}
    (h : ∀ a, p (a, f a) = true) (rows : List Article) :
    (rows.zip (rows.map f)).all p = true := by
  induction rows with
  | nil => rfl
  | cons a rest ih => simp [List.zip_cons_cons, h a, ih]

theorem zip_self_all {p : Article × Article → Bool}
    (h : ∀ a, p (a, a) = true) (rows : List Article) :
    (rows.zip rows).all p = true := by
  induction rows with
  | nil => rfl
  | cons a rest ih => simp [List.zip_cons_cons, h a, ih]

/-- C5.  Scoring eligibility and monotonicity: (i) the rows handed to the
scorer are exactly the stored rows whose score is null; (ii) a row with a
non-null score is never among them; (iii) when no stored row is unscored the
scoring stage is skipped and the store untouched; (iv) the stage maps the
store row for row, preserving each row's hash and never turning a non-null
score back into null — so a record scored in one run is still non-null, and
by (ii) not re-submitted, in every later run. -/
theorem scoring_eligibility_monotone :
    (∀ (rows : List Article) (a : Article),
      a ∈ selectUnscored rows ↔ (a ∈ rows ∧ a.score = none))
    ∧ (∀ (rows : List Article) (a : Article),
        a ∈ rows → a.score.isSome → a ∉ selectUnscored rows)
    ∧ (∀ excl invoke csv, selectUnscored (load_all_articles_from_csv csv) = [] →
        scoringStage excl invoke csv = csv)
    ∧ (∀ excl invoke (rows : List Article),
        (load_all_articles_from_csv (scoringStage excl invoke (CsvFile.ok rows))).length
            = rows.length
        ∧ (rows.zip (load_all_articles_from_csv
              (scoringStage excl invoke (CsvFile.ok rows)))).all
            (fun p => p.1.hash == p.2.hash && (!p.1.score.isSome || p.2.score.isSome))
              = true) := by
  have hsel : ∀ (rows : List Article) (a : Article),
      a ∈ selectUnscored rows ↔ (a ∈ rows ∧ a.score = none) := by
    intro rows a
    simp [selectUnscored, List.mem_filter, Option.isNone_iff_eq_none]
  refine ⟨hsel, ?_, ?_, ?_⟩
  · intro rows a _ hs hmem
    have := ((hsel rows a).mp hmem).2
    rw [this] at hs
    cases hs
  · intro excl invoke csv h
    unfold scoringStage
    simp [h]
  · intro excl invoke rows
    by_cases hu : selectUnscored rows = []
    · have hstage : scoringStage excl invoke (CsvFile.ok rows) = CsvFile.ok rows := by
        unfold scoringStage
        simp [load_all_articles_from_csv, hu]
      rw [hstage]
      exact ⟨rfl, zip_self_all (fun a => by cases h : a.score <;> simp [h]) rows⟩
    · have hu' : (selectUnscored rows).isEmpty = false := by
        cases hsl : selectUnscored rows with
        | nil => exact absurd hsl hu
        | cons x xs => rfl
      by_cases hsc : (toScoredRows (score_articles excl invoke (selectUnscored rows))).isEmpty
      · have hstage : scoringStage excl invoke (CsvFile.ok rows) = CsvFile.ok rows := by
          unfold scoringStage update_article_scores_in_csv
          simp [load_all_articles_from_csv, hu', hsc]
        rw [hstage]
        exact ⟨rfl, zip_self_all (fun a => by cases h : a.score <;> simp [h]) rows⟩
      · have hstage : scoringStage excl invoke (CsvFile.ok rows)
            = CsvFile.ok (rows.map (updateOne
                (toScoredRows (score_articles excl invoke (selectUnscored rows))))) := by
          unfold scoringStage update_article_scores_in_csv
          simp [load_all_articles_from_csv, hu', hsc]
        rw [hstage]
        refine ⟨by simp [load_all_articles_from_csv], ?_⟩
        show (rows.zip (rows.map (updateOne
            (toScoredRows (score_articles excl invoke (selectUnscored rows)))))).all _ = true
        refine zip_map_all (fun a => ?_) rows
        have h1 : (updateOne (toScoredRows (score_articles excl invoke
            (selectUnscored rows))) a).hash = a.hash := by
          have hfr := updateOne_frame (toScoredRows (score_articles excl invoke
            (selectUnscored rows))) a
          unfold frameFields at hfr
          exact congrArg (fun t => t.1) hfr
        by_cases has : a.score.isSome
        · have h2 := updateOne_score_some (toScoredRows (score_articles excl invoke
            (selectUnscored rows))) a has
          simp [h1, h2]
        · simp [h1, has]

/-- Witness for C5 at concrete stores: the eligibility filter picks exactly
the null-score row, a scored row is not eligible, a fully scored store skips
the stage, and the stage preserves hashes and non-null scores row for row. -/
theorem scoring_eligibility_monotone_witness :
    (({ hash := "h1", title := "T1", link := "L", summary := "", email_id := none,
        email_date := none, score := none, reason := none, full_text_summary := none,
        added_at := "a" } : Article)
      ∈ selectUnscored
        [{ hash := "h1", title := "T1", link := "L", summary := "", email_id := none,
           email_date := none, score := none, reason := none, full_text_summary := none,
           added_at := "a" },
         { hash := "h2", title := "T2", link := "L", summary := "", email_id := none,
           email_date := none, score := some "High", reason := some "r",
           full_text_summary := none, added_at := "a" }]
      ↔ (({ hash := "h1", title := "T1", link := "L", summary := "", email_id := none,
            email_date := none, score := none, reason := none, full_text_summary := none,
            added_at := "a" } : Article)
          ∈ [{ hash := "h1", title := "T1", link := "L", summary := "", email_id := none,
               email_date := none, score := none, reason := none, full_text_summary := none,
               added_at := "a" },
             { hash := "h2", title := "T2", link := "L", summary := "", email_id := none,
               email_date := none, score := some "High", reason := some "r",
               full_text_summary := none, added_at := "a" }]
        ∧ (none : Option String) = none))
    ∧ (({ hash := "h2", title := "T2", link := "L", summary := "", email_id := none,
          email_date := none, score := some "High", reason := some "r",
          full_text_summary := none, added_at := "a" } : Article)
        ∉ selectUnscored
          [{ hash := "h2", title := "T2", link := "L", summary := "", email_id := none,
             email_date := none, score := some "High", reason := some "r",
             full_text_summary := none, added_at := "a" }])
    ∧ scoringStage [] (fun _ _ => Except.error "down")
        (CsvFile.ok [{ hash := "h2", title := "T2", link := "L", summary := "",
                       email_id := none, email_date := none, score := some "High",
                       reason := some "r", full_text_summary := none, added_at := "a" }])
      = CsvFile.ok [{ hash := "h2", title := "T2", link := "L", summary := "",
                      email_id := none, email_date := none, score := some "High",
                      reason := some "r", full_text_summary := none, added_at := "a" }] :=
  ⟨scoring_eligibility_monotone.1 _ _,
   scoring_eligibility_monotone.2.1 _ _ (List.mem_cons_self _ _) (by decide),
   scoring_eligibility_monotone.2.2.1 [] (fun _ _ => Except.error "down") _ (by decide)⟩

/-! ## Report selection

report_builder.get_articles_for_report reads the CSV, keeps rows whose score
is the configured high or medium label, and sorts by the categorical rank of
the score (high before medium before Low) ascending and email_date
descending, nulls last.  The function takes no timestamp argument and applies
no timestamp filter; pandas' default quicksort is replaced by an insertion
sort, which fixes the order of full ties the source leaves unspecified. -/

def insertByLE {α : Type} (le : α → α → Bool) (a : α) : List α → List α
  | [] => [a]
  | b :: rest => if le a b then a :: b :: rest else b :: insertByLE le a rest

def sortByLE {α : Type} (le : α → α → Bool) : List α → List α
  | [] => []
  | a :: rest => insertByLE le a (sortByLE le rest)

/-- Rank under pd.Categorical([high, medium, Low], ordered): anything else
would be NaN and sort last, but only high/medium rows survive the filter. -/
def tierRank (high medium : String) (s : Option String) : Nat :=
  if s == some high then 0 else if s == some medium then 1
  else if s == some "Low" then 2 else 3

/-- sort_values(by=[score_cat, email_date], ascending=[True, False]),
NaN dates last. -/
def reportLE (high medium : String) (a b : Article) : Bool :=
  if tierRank high medium a.score < tierRank high medium b.score then true
  else if tierRank high medium b.score < tierRank high medium a.score then false
  else match a.email_date, b.email_date with
       | some x, some y => y ≤ x
       | some _, none => true
       | none, some _ => false
       | none, none => true

/-- report_builder.get_articles_for_report: an unreadable, empty or missing
CSV reports nothing; otherwise filter to the high/medium tiers and sort.
There is no timestamp parameter in the source signature. -/
def get_articles_for_report (csv : CsvFile) (high medium : String) : List Article :=
  match csv with
  | CsvFile.ok rows =>
      sortByLE (reportLE high medium)
        (rows.filter (fun a => a.score == some high || a.score == some medium))
  | _ => []

/-- C6 (code evaluated at the failing input).  A store holding a Medium
record at timestamp 5, a Low record, and High records at timestamps 20 and
10, selected for a fetch run whose minimum source timestamp is 10: the claim
requires the timestamp-5 record to be excluded, but the selector has no
timestamp parameter at all and returns it — while the tier filter and the
(High,20), (High,10), (Medium,5) ordering do behave as claimed. -/
theorem report_selector_ignores_min_timestamp :
    get_articles_for_report
      (CsvFile.ok
        [{ hash := "h3", title := "M", link := "l3", summary := "", email_id := none,
           email_date := some 5, score := some "Medium", reason := some "r3",
           full_text_summary := none, added_at := "a" },
         { hash := "h4", title := "X", link := "l4", summary := "", email_id := none,
           email_date := some 50, score := some "Low", reason := some "r4",
           full_text_summary := none, added_at := "a" },
         { hash := "h1", title := "H20", link := "l1", summary := "", email_id := none,
           email_date := some 20, score := some "High", reason := some "r1",
           full_text_summary := none, added_at := "a" },
         { hash := "h2", title := "H10", link := "l2", summary := "", email_id := none,
           email_date := some 10, score := some "High", reason := some "r2",
           full_text_summary := none, added_at := "a" }])
      "High" "Medium"
      = [{ hash := "h1", title := "H20", link := "l1", summary := "", email_id := none,
           email_date := some 20, score := some "High", reason := some "r1",
           full_text_summary := none, added_at := "a" },
         { hash := "h2", title := "H10", link := "l2", summary := "", email_id := none,
           email_date := some 10, score := some "High", reason := some "r2",
           full_text_summary := none, added_at := "a" },
         { hash := "h3", title := "M", link := "l3", summary := "", email_id := none,
           email_date := some 5, score := some "Medium", reason := some "r3",
           full_text_summary := none, added_at := "a" }] := by
  decide

/-! ## Email parsing

parser.parse_scholar_email_html walks every h3 tag of the message body; the
BeautifulSoup view of one h3 is modelled as the result of its title-anchor
lookup plus the ordered list of its following siblings.  An anchor carries
its stripped text and optional href attribute; a sibling carries its tag
name, class list and stripped text. -/

structure Anchor where
  text : String
  href : Option String
  deriving DecidableEq, Repr

structure SibNode where
  name : String
  classes : List String
  text : String
  deriving DecidableEq, Repr

structure H3Block where
  titleAnchor : Option Anchor
  siblings : List SibNode
  deriving DecidableEq, Repr

structure ParsedArticle where
  title : String
  link : String
  summary : String
  deriving DecidableEq, Repr

/-- The sibling walk: first div carrying class gse_alrt_sni before the next
h3 provides the summary; hitting an h3 (the next article) stops the walk. -/
def findSummaryTag : List SibNode → Option SibNode
  | [] => none
  | s :: rest =>
      if s.name == "div" && s.classes.contains "gse_alrt_sni" then some s
      else if s.name == "h3" then none
      else findSummaryTag rest

/-- One h3: skip when no title anchor; title from the anchor text, link from
href defaulting to the empty string, summary from the sibling walk or empty;
emit only when title and link are both nonempty (Python truthiness). -/
def parseBlock (b : H3Block) : List ParsedArticle :=
  match b.titleAnchor with
  | none => []
  | some anc =>
      let title := anc.text
      let link := anc.href.getD ""
      let summary := match findSummaryTag b.siblings with
                     | some s => s.text
                     | none => ""
      if title == "" || link == "" then [] else [⟨title, link, summary⟩]

/-- parser.parse_scholar_email_html over the h3 tags of one message. -/
def parse_scholar_email_html (blocks : List H3Block) : List ParsedArticle :=
  (blocks.map parseBlock).flatten

/-- C10.  Every article the parser emits has a nonempty title and a nonempty
link, and its summary field is always present as a string (possibly empty);
an h3 whose title anchor is missing, whose anchor text is empty, or whose
href is missing or empty contributes nothing — it is dropped silently. -/
theorem parser_output_contract :
    (∀ (blocks : List H3Block) (art : ParsedArticle),
      art ∈ parse_scholar_email_html blocks → art.title ≠ "" ∧ art.link ≠ "")
    ∧ (∀ b : H3Block,
        (b.titleAnchor = none
          ∨ ∃ anc, b.titleAnchor = some anc ∧ (anc.text = "" ∨ anc.href.getD "" = "")) →
        parseBlock b = []) := by
  constructor
  · intro blocks art hmem
    obtain ⟨l, hl, hart⟩ := List.mem_flatten.mp hmem
    obtain ⟨b, _, rfl⟩ := List.mem_map.mp hl
    unfold parseBlock at hart
    cases hanc : b.titleAnchor with
    | none => rw [hanc] at hart; cases hart
    | some anc =>
        rw [hanc] at hart
        by_cases hcond : (anc.text == "" || anc.href.getD "" == "") = true
        · simp only [hcond, if_true] at hart
          cases hart
        · simp only [hcond, Bool.false_eq_true, if_false, List.mem_singleton] at hart
          subst hart
          simp only [Bool.or_eq_true, beq_iff_eq] at hcond
          push_neg at hcond
          exact hcond
  · intro b hb
    unfold parseBlock
    rcases hb with hb | ⟨anc, hanc, hempty⟩
    · rw [hb]
    · rw [hanc]
      rcases hempty with h | h <;> simp [h]

/-- Witness for C10: a two-block message, one well-formed article (whose
missing summary div yields an empty summary string) and one anchor with an
empty href that is dropped. -/
theorem parser_output_contract_witness :
    (({ title := "Deep Learning", link := "http://x", summary := "" } : ParsedArticle)
        ∈ parse_scholar_email_html
            [{ titleAnchor := some { text := "Deep Learning", href := some "http://x" },
               siblings := [] }]
      → ({ title := "Deep Learning", link := "http://x", summary := "" } : ParsedArticle).title ≠ ""
        ∧ ({ title := "Deep Learning", link := "http://x", summary := "" } : ParsedArticle).link ≠ "")
    ∧ parseBlock { titleAnchor := some { text := "No Link Title", href := none },
                   siblings := [] } = []
    ∧ parse_scholar_email_html
        [{ titleAnchor := some { text := "Deep Learning", href := some "http://x" },
           siblings := [] }]
        = [{ title := "Deep Learning", link := "http://x", summary := "" }] :=
  ⟨parser_output_contract.1 _ _,
   parser_output_contract.2 _ (Or.inr ⟨_, rfl, Or.inr rfl⟩),
   by decide⟩

/-! ## The fetch pipeline

cli.fetch, with every external boundary a parameter: the mailbox content and
the Gmail after-filter stand for the mail collaborator (the after query with
a truthy timestamp keeps strictly newer messages; mail_fetcher then sorts
descending by date), invoke is the LLM chain, webText the web-enrichment
fetcher composed with its truncation/failure wrapper, and sinceArg the
already-validated --since value (an invalid one exits before any work).  The
report step reads the selected rows and renders them externally, changing no
store state, and is omitted here; the keyword-argument drift between cli.py
and the collaborator signatures (proxy_config, start_timestamp — see the C6
analysis) is bypassed to reach the logic under claim. -/

structure EmailMsg where
  id : String
  date : Int
  body : List H3Block
  deriving DecidableEq, Repr

/-- mail_fetcher sort key=date, reverse=True. -/
def emailDateGE (a b : EmailMsg) : Bool := b.date ≤ a.date

/-- mail_fetcher.get_scholar_alert_emails: with a truthy last-run timestamp
the query keeps only strictly newer messages; results are sorted by date
descending. -/
def get_scholar_alert_emails (mailbox : List EmailMsg)
    (last_run_timestamp : Option Int) : List EmailMsg :=
  let filtered := match last_run_timestamp with
    | some t => if t == 0 then mailbox else mailbox.filter (fun e => decide (t < e.date))
    | none => mailbox
  sortByLE emailDateGE filtered

/-- One step of cli.fetch's running maximum over email dates. -/
def latestStep (acc : Option Int) (e : EmailMsg) : Option Int :=
  match acc with
  | none => some e.date
  | some t => if t < e.date then some e.date else some t

/-- latest_email_date_ts after the parsing loop. -/
def latestDate (emails : List EmailMsg) : Option Int :=
  emails.foldl latestStep none

/-- The parsing loop: every article of every fetched email, with the email's
id and date attached. -/
def parsedRaws (emails : List EmailMsg) : List RawArticle :=
  (emails.map (fun e => (parse_scholar_email_html e.body).map
    (fun p => { title := p.title, link := p.link, summary := p.summary,
                email_id := e.id, email_date := e.date }))).flatten

structure PipelineState where
  csv : CsvFile
  db : List Article
  watermark : Option Int
  deriving DecidableEq, Repr

/-- The guarded watermark write, if latest_email_date_ts:
storage.update_last_run_timestamp(latest_email_date_ts) — Python truthiness
skips the write when the value is None or zero. -/
def updateTsIfTruthy (old latest : Option Int) : Option Int :=
  match latest with
  | some t => if t == 0 then old else some t
  | none => old

/-- start_timestamp: the parsed --since value when given, else the stored
watermark. -/
def startTimestamp (sinceArg stored : Option Int) : Option Int :=
  match sinceArg with
  | some t => some t
  | none => stored

structure Config where
  exclude_keywords : List String
  high_threshold : String
  medium_threshold : String
  enable_web_article : Bool

/-- cli.fetch step 5: when enabled, rows lacking full_text_summary at the
high/medium tiers are enriched through the external fetcher and merged back;
webText already folds the per-link success, truncation and failure-marker
handling of enrich_articles_with_web_content. -/
def enrichStage (enabled : Bool) (high medium : String) (webText : String → String)
    (csv : CsvFile) : CsvFile :=
  if enabled then
    let rows := load_all_articles_from_csv csv
    let needs := rows.filter (fun a => a.full_text_summary.isNone
        && (a.score == some high || a.score == some medium))
    if needs.isEmpty then csv
    else update_article_enrichment_in_csv csv
      (needs.map (fun a => ⟨a.hash, some (webText a.link)⟩))
  else csv

/-- cli.fetch.  No emails: exit, state untouched.  Emails but no parsed
articles: only the watermark write (guarded by truthiness).  Otherwise save,
reload (an empty reload exits after the watermark write), score, enrich, and
finally write the watermark — always to the maximum fetched-email date,
whatever was stored before. -/
def fetch (cfg : Config) (invoke : String → String → Except String ScoreResp)
    (webText : String → String) (mailbox : List EmailMsg) (sinceArg : Option Int)
    (st : PipelineState) (now : String) : PipelineState :=
  let raw_emails := get_scholar_alert_emails mailbox (startTimestamp sinceArg st.watermark)
  if raw_emails.isEmpty then st
  else
    let all_parsed := parsedRaws raw_emails
    let latest := latestDate raw_emails
    if all_parsed.isEmpty then
      { st with watermark := updateTsIfTruthy st.watermark latest }
    else
      let sres := save_articles st.csv st.db all_parsed now
      if (load_all_articles_from_csv sres.csv).isEmpty then
        { csv := sres.csv, db := sres.db, watermark := updateTsIfTruthy st.watermark latest }
      else
        let csv2 := scoringStage cfg.exclude_keywords invoke sres.csv
        let csv3 := enrichStage cfg.enable_web_article cfg.high_threshold
          cfg.medium_threshold webText csv2
        { csv := csv3, db := sres.db, watermark := updateTsIfTruthy st.watermark latest }

/-! ## Watermark lemmas -/

theorem mem_insertByLE {α : Type} (le : α → α → Bool) (x a : α) (l : List α) :
    a ∈ insertByLE le x l ↔ a = x ∨ a ∈ l := by
  induction l with
  | nil => simp [insertByLE]
  | cons b rest ih =>
      unfold insertByLE
      by_cases h : le x b
      · simp only [h, if_true, List.mem_cons]
      · simp only [h, Bool.false_eq_true, if_false, List.mem_cons, ih]
        tauto

theorem mem_sortByLE {α : Type} (le : α → α → Bool) (a : α) (l : List α) :
    a ∈ sortByLE le l ↔ a ∈ l := by
  induction l with
  | nil => simp [sortByLE]
  | cons b rest ih => simp [sortByLE, mem_insertByLE, ih]

theorem latestStep_bound (acc : Option Int) (e : EmailMsg) :
    ∃ v, latestStep acc e = some v ∧ e.date ≤ v ∧ ∀ u, acc = some u → u ≤ v := by
  cases acc with
  | none => exact ⟨e.date, rfl, le_refl _, fun u hu => by cases hu⟩
  | some u =>
      by_cases h : u < e.date
      · refine ⟨e.date, by simp [latestStep, h], le_refl _, fun u' hu' => ?_⟩
        injection hu' with hh
        omega
      · refine ⟨u, by simp [latestStep, h], by omega, fun u' hu' => ?_⟩
        injection hu' with hh
        omega

theorem latestFold_ub (es : List EmailMsg) : ∀ (acc : Option Int) (t : Int),
    es.foldl latestStep acc = some t →
    (∀ e ∈ es, e.date ≤ t) ∧ (∀ u, acc = some u → u ≤ t) := by
  induction es with
  | nil =>
      intro acc t h
      rw [List.foldl_nil] at h
      refine ⟨fun e he => absurd he (List.not_mem_nil e), fun u hu => ?_⟩
      rw [hu] at h
      injection h with hh
      omega
  | cons e rest ih =>
      intro acc t h
      rw [List.foldl_cons] at h
      obtain ⟨hub, hacc⟩ := ih (latestStep acc e) t h
      obtain ⟨v, hv, hev, hprev⟩ := latestStep_bound acc e
      have hvt : v ≤ t := hacc v hv
      refine ⟨?_, fun u hu => le_trans (hprev u hu) hvt⟩
      intro e' he'
      rcases List.mem_cons.mp he' with rfl | he'
      · exact le_trans hev hvt
      · exact hub e' he'

theorem latestFold_mem (es : List EmailMsg) : ∀ (acc : Option Int) (t : Int),
    es.foldl latestStep acc = some t → acc = some t ∨ ∃ e ∈ es, e.date = t := by
  induction es with
  | nil =>
      intro acc t h
      rw [List.foldl_nil] at h
      exact Or.inl h
  | cons e rest ih =>
      intro acc t h
      rw [List.foldl_cons] at h
      rcases ih (latestStep acc e) t h with hstep | ⟨e', he', hd⟩
      · cases hacc : acc with
        | none =>
            rw [hacc] at hstep
            have hdd : e.date = t := by
              simpa [latestStep] using hstep
            exact Or.inr ⟨e, List.mem_cons_self _ _, hdd⟩
        | some u =>
            rw [hacc] at hstep
            by_cases hlt : u < e.date
            · have hdd : e.date = t := by
                simpa [latestStep, hlt] using hstep
              exact Or.inr ⟨e, List.mem_cons_self _ _, hdd⟩
            · have huu : u = t := by
                simpa [latestStep, hlt] using hstep
              exact Or.inl (congrArg some huu)
      · exact Or.inr ⟨e', List.mem_cons_of_mem _ he', hd⟩

theorem updateOne_hash (scored : List ScoredRow) (a : Article) :
    (updateOne scored a).hash = a.hash := by
  unfold updateOne
  cases scored.find? (fun s => s.hash == a.hash) <;> rfl

theorem updateOneEnrich_hash (enr : List EnrichRow) (a : Article) :
    (updateOneEnrich enr a).hash = a.hash := by
  unfold updateOneEnrich
  cases enr.find? (fun s => s.hash == a.hash) <;> rfl

theorem hasHash_map {f : Article → Article} (hf : ∀ a, (f a).hash = a.hash)
    (rows : List Article) (h : String) (hh : hasHash rows h = true) :
    hasHash (rows.map f) h = true := by
  obtain ⟨b, hb, hbe⟩ := hasHash_iff.mp hh
  exact hasHash_iff.mpr ⟨f b, List.mem_map_of_mem f hb, (hf b).trans hbe⟩

theorem update_scores_csv_hasHash (csv : CsvFile) (scored : List ScoredRow)
    (h : String) (hh : hasHash (load_all_articles_from_csv csv) h = true) :
    hasHash (load_all_articles_from_csv
      (update_article_scores_in_csv csv scored)) h = true := by
  unfold update_article_scores_in_csv
  cases csv with
  | ok rows =>
      dsimp only
      by_cases hs : scored.isEmpty = true
      · rw [if_pos hs]
        exact hh
      · rw [if_neg hs]
        exact hasHash_map (updateOne_hash _) rows h hh
  | absent => exact hh
  | emptyData => exact hh
  | err prior => exact hh

theorem update_enrich_csv_hasHash (csv : CsvFile) (enr : List EnrichRow)
    (h : String) (hh : hasHash (load_all_articles_from_csv csv) h = true) :
    hasHash (load_all_articles_from_csv
      (update_article_enrichment_in_csv csv enr)) h = true := by
  unfold update_article_enrichment_in_csv
  cases csv with
  | ok rows =>
      dsimp only
      by_cases hs : enr.isEmpty = true
      · rw [if_pos hs]
        exact hh
      · rw [if_neg hs]
        exact hasHash_map (updateOneEnrich_hash _) rows h hh
  | absent => exact hh
  | emptyData => exact hh
  | err prior => exact hh

theorem scoringStage_hasHash (excl : List String)
    (invoke : String → String → Except String ScoreResp) (csv : CsvFile)
    (h : String) (hh : hasHash (load_all_articles_from_csv csv) h = true) :
    hasHash (load_all_articles_from_csv (scoringStage excl invoke csv)) h = true := by
  unfold scoringStage
  dsimp only
  split
  · exact hh
  · exact update_scores_csv_hasHash _ _ _ hh

theorem enrichStage_hasHash (enabled : Bool) (high medium : String)
    (webText : String → String) (csv : CsvFile) (h : String)
    (hh : hasHash (load_all_articles_from_csv csv) h = true) :
    hasHash (load_all_articles_from_csv
      (enrichStage enabled high medium webText csv)) h = true := by
  unfold enrichStage
  dsimp only
  split
  · split
    · exact hh
    · exact update_enrich_csv_hasHash _ _ _ hh
  · exact hh

/-- C2 (counterexample).  The persisted watermark can regress: with the
stored watermark at 100, a run invoked with --since 10 against a mailbox
whose only remaining alert is dated 30 (one article, which is fetched,
parsed, merged and scored) rewrites the watermark to 30 — below the 100 it
held before the run — because update_last_run_timestamp is called with the
maximum fetched-email date unconditionally, never guarded against the prior
value. -/
theorem fetch_watermark_regression_cex :
    (fetch { exclude_keywords := [], high_threshold := "High",
             medium_threshold := "Medium", enable_web_article := false }
        (fun _ _ => Except.error "api down") (fun _ => "")
        [{ id := "e1", date := 30,
           body := [{ titleAnchor := some { text := "T", href := some "L" },
                      siblings := [] }] }]
        (some 10)
        { csv := CsvFile.absent, db := [], watermark := some 100 } "n").watermark
      = some 30 := by decide

/-- C2 (amended).  When the run observes fetched emails with a nonzero
maximum date t, the watermark is set (once, at the end of the branch taken)
to exactly t: the maximum over all fetched emails, one of which realises it.
At that point every parsed article of the run is already present in the
store by content hash — the merge precedes the watermark write.  In a
default run (no --since, a truthy stored watermark w), the mail query keeps
only strictly newer emails, so t exceeds w and the watermark never regresses;
a user-supplied --since may regress it, as the counterexample shows. -/
theorem fetch_watermark_behavior (cfg : Config)
    (invoke : String → String → Except String ScoreResp) (webText : String → String)
    (mailbox : List EmailMsg) (sinceArg : Option Int) (st : PipelineState)
    (now : String) (t : Int)
    (hlat : latestDate (get_scholar_alert_emails mailbox
        (startTimestamp sinceArg st.watermark)) = some t)
    (ht : t ≠ 0) :
    (fetch cfg invoke webText mailbox sinceArg st now).watermark = some t
    ∧ (∀ e ∈ get_scholar_alert_emails mailbox (startTimestamp sinceArg st.watermark),
        e.date ≤ t)
    ∧ (∃ e ∈ get_scholar_alert_emails mailbox (startTimestamp sinceArg st.watermark),
        e.date = t)
    ∧ (∀ r ∈ parsedRaws (get_scholar_alert_emails mailbox
          (startTimestamp sinceArg st.watermark)),
        ∃ row ∈ load_all_articles_from_csv
            (fetch cfg invoke webText mailbox sinceArg st now).csv,
          row.hash = get_title_hash r.title)
    ∧ (sinceArg = none → ∀ w, st.watermark = some w → w ≠ 0 → w < t) := by
  set es := get_scholar_alert_emails mailbox (startTimestamp sinceArg st.watermark)
    with hes
  have hub := (latestFold_ub es none t hlat).1
  have hmem : ∃ e ∈ es, e.date = t := by
    rcases latestFold_mem es none t hlat with hn | hm
    · cases hn
    · exact hm
  have hesne : es.isEmpty = false := by
    obtain ⟨e, he, -⟩ := hmem
    cases hx : es with
    | nil => rw [hx] at he; cases he
    | cons a l => rfl
  have ht0 : (t == 0) = false := beq_eq_false_iff_ne.mpr ht
  have hwm : updateTsIfTruthy st.watermark (latestDate es) = some t := by
    rw [hlat]
    simp [updateTsIfTruthy, ht0]
  refine ⟨?_, hub, hmem, ?_, ?_⟩
  · unfold fetch
    rw [← hes]
    dsimp only
    simp only [hesne, Bool.false_eq_true, if_false]
    split
    · exact hwm
    · split
      · exact hwm
      · exact hwm
  · intro r hr
    unfold fetch
    rw [← hes]
    dsimp only
    simp only [hesne, Bool.false_eq_true, if_false]
    split
    · rename_i hpe
      rw [List.isEmpty_iff.mp hpe] at hr
      cases hr
    · split
      · exact save_covers st.csv st.db (parsedRaws es) now r hr
      · obtain ⟨b, hb, hbe⟩ := save_covers st.csv st.db (parsedRaws es) now r hr
        have h1 : hasHash (load_all_articles_from_csv
            (save_articles st.csv st.db (parsedRaws es) now).csv)
            (get_title_hash r.title) = true :=
          hasHash_iff.mpr ⟨b, hb, hbe⟩
        have h2 := scoringStage_hasHash cfg.exclude_keywords invoke _ _ h1
        have h3 := enrichStage_hasHash cfg.enable_web_article cfg.high_threshold
          cfg.medium_threshold webText _ _ h2
        exact hasHash_iff.mp h3
  · intro hsin w hw hw0
    obtain ⟨e, he, hed⟩ := hmem
    rw [hes, hsin, hw] at he
    unfold get_scholar_alert_emails at he
    have hw0' : (w == 0) = false := beq_eq_false_iff_ne.mpr hw0
    rw [mem_sortByLE] at he
    dsimp only [startTimestamp] at he
    rw [hw0'] at he
    simp only [Bool.false_eq_true, if_false] at he
    have hdec := (List.mem_filter.mp he).2
    have hlt : w < e.date := of_decide_eq_true hdec
    omega

/-- Witness for the amended C2: a default run over one email dated 30 with
stored watermark 10 sets the watermark to 30, strictly above the prior 10. -/
theorem fetch_watermark_behavior_witness :
    latestDate (get_scholar_alert_emails
        [{ id := "e1", date := 30,
           body := [{ titleAnchor := some { text := "T", href := some "L" },
                      siblings := [] }] }]
        (startTimestamp none (some 10))) = some 30
    ∧ (fetch { exclude_keywords := [], high_threshold := "High",
               medium_threshold := "Medium", enable_web_article := false }
          (fun _ _ => Except.error "api down") (fun _ => "")
          [{ id := "e1", date := 30,
             body := [{ titleAnchor := some { text := "T", href := some "L" },
                        siblings := [] }] }]
          none { csv := CsvFile.absent, db := [], watermark := some 10 }
          "n").watermark = some 30
    ∧ (10 : Int) < 30 :=
  ⟨by decide,
   (fetch_watermark_behavior
      { exclude_keywords := [], high_threshold := "High",
        medium_threshold := "Medium", enable_web_article := false }
      (fun _ _ => Except.error "api down") (fun _ => "")
      [{ id := "e1", date := 30,
         body := [{ titleAnchor := some { text := "T", href := some "L" },
                    siblings := [] }] }]
      none { csv := CsvFile.absent, db := [], watermark := some 10 } "n" 30
      (by decide) (by decide)).1,
   (fetch_watermark_behavior
      { exclude_keywords := [], high_threshold := "High",
        medium_threshold := "Medium", enable_web_article := false }
      (fun _ _ => Except.error "api down") (fun _ => "")
      [{ id := "e1", date := 30,
         body := [{ titleAnchor := some { text := "T", href := some "L" },
                    siblings := [] }] }]
      none { csv := CsvFile.absent, db := [], watermark := some 10 } "n" 30
      (by decide) (by decide)).2.2.2.2 rfl 10 rfl (by decide)⟩

end ScholarDigest
